import Mathlib

/-!
Shallow embedding of the JWT authorization decision core of
gcp-service-extensions-playground: the ext_authz Check adapter, the
ext_proc Process adapter and their shared header-extraction and
response-building logic (cmd/callout-server/main.go), together with the
request-headers handler of the proxy-wasm plugin (plugins/wasm-jwt/main.go).
Machine strings are Lean strings; protobuf messages are structures with
Option fields wherever the Go pointer may be nil; the third-party jwx
token-parsing call is modelled symbolically by its documented contract.
-/

namespace GcpSE

/-- Model of Go strings.HasPrefix: p is a prefix of s. -/
def strHasPfx (p s : String) : Bool := List.isPrefixOf p.data s.data

/-- Model of Go strings.TrimPrefix under the guard that the prefix is
present: drop the first p.length characters of s. -/
def strDropPfx (p s : String) : String := ⟨s.data.drop p.data.length⟩

/-- Model of Go strings.EqualFold restricted to ASCII simple case folding,
which coincides with EqualFold on the ASCII header keys the code compares. -/
def eqFold (a b : String) : Bool := a.data.map Char.toLower == b.data.map Char.toLower

/-- Model of Go strings.Split with the single-character separator dot,
character-list version. -/
def splitDotCs : List Char → List (List Char)
  | [] => [[]]
  | c :: rest =>
    let r := splitDotCs rest
    if c = '.' then [] :: r
    else
      match r with
      | h :: t => (c :: h) :: t
      | [] => [[c]]

/-- Model of Go strings.Split with the single-character separator dot. -/
def splitDot (s : String) : List String := (splitDotCs s.data).map (fun cs => ⟨cs⟩)

/-- Constant bearerPrefix from cmd/callout-server/main.go. -/
def bearerPfx : String := "Bearer "

/-- Constant headerAuth from cmd/callout-server/main.go. -/
def headerAuth : String := "authorization"

/-- Constant headerUID from cmd/callout-server/main.go. -/
def headerUID : String := "x-uid"

/-- Message of errMissingAuthorization from cmd/callout-server/main.go. -/
def errMissingAuthorization : String := "authorization header is missing"

/-- Message of errInvalidAuthorization from cmd/callout-server/main.go. -/
def errInvalidAuthorization : String := "authorization header is invalid"

/-- Envoy core.HeaderValue: a header entry with a string value and a raw
byte value (bytes modelled as a string, as Go converts them with string()). -/
structure HeaderValue where
  key : String
  value : String
  rawValue : String
deriving DecidableEq, Repr

/-- Envoy core.HeaderMap: a list of header entries. -/
structure HeaderMap where
  headers : List HeaderValue
deriving DecidableEq, Repr

/-- The http attributes of an ext_authz CheckRequest; only the header map
is read by the code. GetHeaderMap may return nil. -/
structure AttributeContextHttpRequest where
  headerMap : Option HeaderMap
deriving DecidableEq, Repr

/-- AttributeContext.Request; GetHttp may return nil. -/
structure AttributeContextRequest where
  http : Option AttributeContextHttpRequest
deriving DecidableEq, Repr

/-- AttributeContext; GetRequest may return nil. -/
structure AttributeContext where
  request : Option AttributeContextRequest
deriving DecidableEq, Repr

/-- ext_authz CheckRequest; GetAttributes may return nil. -/
structure CheckRequest where
  attributes : Option AttributeContext
deriving DecidableEq, Repr

/-- The chain req.GetAttributes().GetRequest().GetHttp().GetHeaderMap() of
nil-safe protobuf getters from bearerFromRequest. -/
def CheckRequest.httpHeaderMap (r : CheckRequest) : Option HeaderMap :=
  ((r.attributes.bind (fun a => a.request)).bind (fun q => q.http)).bind
    (fun h => h.headerMap)

/-- Loop body of getHeaderValueFromHeaderMap over the entries: skip keys
that do not match case-insensitively; take the string value, falling back
to the raw bytes when the string value is empty and the bytes are not;
return the first such non-empty value, else keep scanning. -/
def getHeaderValueFromHeaders (hs : List HeaderValue) (key : String) : String :=
  match hs with
  | [] => ""
  | h :: rest =>
    if eqFold h.key key then
      let value := if h.value = "" ∧ h.rawValue ≠ "" then h.rawValue else h.value
      if value ≠ "" then value else getHeaderValueFromHeaders rest key
    else getHeaderValueFromHeaders rest key

/-- getHeaderValueFromHeaderMap from cmd/callout-server/main.go: nil map
yields the empty string, otherwise scan the entries. -/
def getHeaderValueFromHeaderMap (headerMap : Option HeaderMap) (key : String) : String :=
  match headerMap with
  | none => ""
  | some m => getHeaderValueFromHeaders m.headers key

/-- parseBearer from cmd/callout-server/main.go: require the literal
Bearer prefix and strip it. -/
def parseBearer (value : String) : Except String String :=
  if strHasPfx bearerPfx value = false then Except.error errInvalidAuthorization
  else Except.ok (strDropPfx bearerPfx value)

/-- bearerFromHeaderMap from cmd/callout-server/main.go. -/
def bearerFromHeaderMap (headerMap : Option HeaderMap) : Except String String :=
  let value := getHeaderValueFromHeaderMap headerMap headerAuth
  if value ≠ "" then parseBearer value
  else Except.error errMissingAuthorization

/-- bearerFromRequest from cmd/callout-server/main.go. -/
def bearerFromRequest (req : CheckRequest) : Except String String :=
  bearerFromHeaderMap req.httpHeaderMap

/-- Symbolic JWT: the algorithm its header segment declares, its optional
subject claim, the key identifier its signature verifies against, and
whether its temporal claims are inside the validity window. -/
structure Jwt where
  alg : String
  sub : Option String
  sigKey : Nat
  temporalOk : Bool
deriving DecidableEq, Repr

/-- Result of symbolically decoding a bearer string: either not a
decodable three-segment token at all, or a symbolic token. -/
inductive Decoded where
  | malformed
  | token (t : Jwt)
deriving DecidableEq, Repr

/-- Model of the jwx library call jwt.Parse(bearer, WithKey(RS256, key),
WithValidate(true)) by its documented contract: an undecodable string is
rejected; a decodable token is accepted exactly when its header declares
RS256, its signature verifies against the configured key, and its temporal
claims are valid; the error strings are library-internal and the adapters
merely forward them. The symbolic decoding of bearer strings is the
parameter enc. -/
def jwxParse (key : Nat) (enc : String → Decoded) (bearer : String) : Except String Jwt :=
  match enc bearer with
  | Decoded.malformed => Except.error "failed to parse token"
  | Decoded.token t =>
    if t.alg ≠ "RS256" then Except.error "unsupported signature algorithm"
    else if t.sigKey ≠ key then Except.error "signature verification failed"
    else if t.temporalOk = false then Except.error "temporal claim validation failed"
    else Except.ok t

/-- google.rpc.Status: code and message. -/
structure RpcStatus where
  code : Int
  message : String
deriving DecidableEq, Repr

/-- Envoy core.HeaderValueOption: a header entry plus the append wrapper
(none when the Go field is nil). -/
structure HeaderValueOption where
  header : HeaderValue
  append : Option Bool
deriving DecidableEq, Repr

/-- The http_response oneof of an ext_authz CheckResponse. -/
inductive CheckHttpResponse where
  | okResp (headers : List HeaderValueOption)
  | deniedResp (statusCode : Nat) (body : String)
deriving DecidableEq, Repr

/-- ext_authz CheckResponse. -/
structure CheckResponse where
  status : RpcStatus
  httpResponse : CheckHttpResponse
deriving DecidableEq, Repr

/-- grpc codes.OK. -/
def codeOK : Int := 0

/-- grpc codes.PermissionDenied. -/
def codePermissionDenied : Int := 7

/-- Envoy type.StatusCode_Forbidden. -/
def statusForbidden : Nat := 403

/-- buildOkResponse from cmd/callout-server/main.go: OK status and a
single header-set instruction for the identity header, append false. -/
def buildOkResponse (uid : String) : CheckResponse :=
  { status := { code := codeOK, message := "" }
    httpResponse := CheckHttpResponse.okResp
      [{ header := { key := headerUID, value := uid, rawValue := uid }
         append := some false }] }

/-- buildDeniedResponse from cmd/callout-server/main.go: the given status
code and message, a Forbidden http status and a denied body. -/
def buildDeniedResponse (code : Int) (msg : String) : CheckResponse :=
  { status := { code := code, message := msg }
    httpResponse := CheckHttpResponse.deniedResp statusForbidden ("denied: " ++ msg) }

/-- Check from cmd/callout-server/main.go, parameterised by the token
validation function (the partially applied jwx parse call); the second
component is the Go error result, nil on every path. -/
def Check (validate : String → Except String Jwt) (req : CheckRequest) :
    CheckResponse × Option String :=
  match bearerFromRequest req with
  | Except.error e => (buildDeniedResponse codePermissionDenied e, none)
  | Except.ok bearer =>
    match validate bearer with
    | Except.error e => (buildDeniedResponse codePermissionDenied e, none)
    | Except.ok token =>
      match token.sub with
      | none => (buildDeniedResponse codePermissionDenied "subject is missing", none)
      | some sub =>
        if sub = "" then (buildDeniedResponse codePermissionDenied "subject is missing", none)
        else (buildOkResponse sub, none)

/-- ext_proc CommonResponse.ResponseStatus. -/
inductive CommonStatus where
  | CONTINUE
  | CONTINUE_AND_REPLACE
deriving DecidableEq, Repr

/-- ext_proc HeaderMutation: the set_headers instructions. -/
structure HeaderMutation where
  setHeaders : List HeaderValueOption
deriving DecidableEq, Repr

/-- ext_proc CommonResponse: status plus an optional header mutation
(none when the Go field is nil). -/
structure CommonResponse where
  status : CommonStatus
  headerMutation : Option HeaderMutation
deriving DecidableEq, Repr

/-- ext_proc HttpHeaders event payload; GetHeaders may return nil. -/
structure HttpHeaders where
  headers : Option HeaderMap
deriving DecidableEq, Repr

/-- The request oneof of an ext_proc ProcessingRequest. Payloads other
than request headers are never read by the code and are omitted; the
requestHeaders payload is optional because the oneof wrapper can carry a
nil pointer; unset models an empty oneof. -/
inductive ProcessingRequest where
  | requestHeaders (headers : Option HttpHeaders)
  | responseHeaders
  | requestBody
  | responseBody
  | requestTrailers
  | responseTrailers
  | unset
deriving DecidableEq, Repr

/-- The response oneof of an ext_proc ProcessingResponse. -/
inductive ProcessingResponse where
  | requestHeaders (response : CommonResponse)
  | responseHeaders (response : CommonResponse)
  | requestBody (response : CommonResponse)
  | responseBody (response : CommonResponse)
  | requestTrailers
  | responseTrailers
  | immediate (statusCode : Nat) (body : String)
deriving DecidableEq, Repr

/-- buildContinueProcessingResponse from cmd/callout-server/main.go: the
switch over the request oneof; a CONTINUE response of matching type for
header and body events, an empty trailers response for trailer events,
and nil (none) in the default case. -/
def buildContinueProcessingResponse (req : ProcessingRequest) : Option ProcessingResponse :=
  match req with
  | ProcessingRequest.requestHeaders _ =>
    some (ProcessingResponse.requestHeaders
      { status := CommonStatus.CONTINUE, headerMutation := none })
  | ProcessingRequest.responseHeaders =>
    some (ProcessingResponse.responseHeaders
      { status := CommonStatus.CONTINUE, headerMutation := none })
  | ProcessingRequest.requestBody =>
    some (ProcessingResponse.requestBody
      { status := CommonStatus.CONTINUE, headerMutation := none })
  | ProcessingRequest.responseBody =>
    some (ProcessingResponse.responseBody
      { status := CommonStatus.CONTINUE, headerMutation := none })
  | ProcessingRequest.requestTrailers => some ProcessingResponse.requestTrailers
  | ProcessingRequest.responseTrailers => some ProcessingResponse.responseTrailers
  | ProcessingRequest.unset => none

/-- buildRequestHeadersProcessingResponse from cmd/callout-server/main.go:
CONTINUE with a single set-header instruction for the identity header,
append false. -/
def buildRequestHeadersProcessingResponse (uid : String) : ProcessingResponse :=
  ProcessingResponse.requestHeaders
    { status := CommonStatus.CONTINUE
      headerMutation := some
        { setHeaders :=
            [{ header := { key := headerUID, value := uid, rawValue := uid }
               append := some false }] } }

/-- buildImmediateDeniedProcessingResponse from cmd/callout-server/main.go:
an ImmediateResponse with Forbidden status and a denied body. -/
def buildImmediateDeniedProcessingResponse (msg : String) : ProcessingResponse :=
  ProcessingResponse.immediate statusForbidden ("denied: " ++ msg)

/-- handleRequestHeaders from cmd/callout-server/main.go, parameterised by
the token validation function; the Go error result is nil on every path
and is dropped. -/
def handleRequestHeaders (validate : String → Except String Jwt)
    (headers : HttpHeaders) : ProcessingResponse :=
  match bearerFromHeaderMap headers.headers with
  | Except.error e => buildImmediateDeniedProcessingResponse e
  | Except.ok bearer =>
    match validate bearer with
    | Except.error e => buildImmediateDeniedProcessingResponse e
    | Except.ok token =>
      match token.sub with
      | none => buildImmediateDeniedProcessingResponse "subject is missing"
      | some sub =>
        if sub = "" then buildImmediateDeniedProcessingResponse "subject is missing"
        else buildRequestHeadersProcessingResponse sub

/-- handleProcessingRequest from cmd/callout-server/main.go: a non-nil
request-headers payload goes to handleRequestHeaders, everything else to
buildContinueProcessingResponse. -/
def handleProcessingRequest (validate : String → Except String Jwt)
    (req : ProcessingRequest) : Option ProcessingResponse :=
  match req with
  | ProcessingRequest.requestHeaders (some h) => some (handleRequestHeaders validate h)
  | _ => buildContinueProcessingResponse req

/-- The receive-handle-send loop of Process from cmd/callout-server/main.go
on a cleanly closing stream: each inbound event is handled and the
response, when non-nil, is sent in order. -/
def processStream (validate : String → Except String Jwt) :
    List ProcessingRequest → List ProcessingResponse
  | [] => []
  | r :: rest =>
    match handleProcessingRequest validate r with
    | none => processStream validate rest
    | some resp => resp :: processStream validate rest

/-- Outcome of the wasm plugin request-headers callback: either a denial
sent with SendHttpResponse(403, body) followed by ActionPause, or
ActionContinue after writing the identity header with the given subject. -/
inductive WasmOutcome where
  | deny (body : String)
  | allow (sub : String)
deriving DecidableEq, Repr

/-- Symbolic model of the base64url/JSON/RSA helpers the wasm plugin calls
on the three token segments: decodeHeaderAlg is the decode of the header
segment into its alg field (none on a base64 or JSON error), decodePayloadSub
the decode of the payload segment into its sub field, empty when absent
(none on a base64 or JSON error), decodeSig the base64 decode of the
signature segment, and verify the RSA PKCS1v15 SHA-256 check of a signature
against the signing input under the configured key. -/
structure WasmCrypto where
  decodeHeaderAlg : String → Option String
  decodePayloadSub : String → Option String
  decodeSig : String → Option (List Nat)
  verify : List Nat → String → Bool

/-- OnHttpRequestHeaders from plugins/wasm-jwt/main.go, parameterised by
the symbolic crypto helpers; stateOk is the conjunction of the nil and
config-error checks on the plugin state, and auth is the result of the
authorization header lookup (none models the not-found host error). -/
def onHttpRequestHeaders (c : WasmCrypto) (stateOk : Bool)
    (auth : Option String) : WasmOutcome :=
  if stateOk = false then WasmOutcome.deny "denied: plugin config is invalid"
  else
    match auth with
    | none => WasmOutcome.deny "denied: authorization header is missing"
    | some h =>
      if h = "" then WasmOutcome.deny "denied: authorization header is missing"
      else if strHasPfx bearerPfx h = false then
        WasmOutcome.deny "denied: authorization header is invalid"
      else
        match splitDot (strDropPfx bearerPfx h) with
        | [p0, p1, p2] =>
          match c.decodeHeaderAlg p0 with
          | none => WasmOutcome.deny "denied: token header is invalid"
          | some alg =>
            if alg ≠ "RS256" then WasmOutcome.deny "denied: token header is invalid"
            else
              match c.decodePayloadSub p1 with
              | none => WasmOutcome.deny "denied: token payload is invalid"
              | some sub =>
                if sub = "" then WasmOutcome.deny "denied: subject is missing"
                else
                  match c.decodeSig p2 with
                  | none => WasmOutcome.deny "denied: token signature is invalid"
                  | some sig =>
                    if c.verify sig (p0 ++ "." ++ p1) = false then
                      WasmOutcome.deny "denied: token signature is invalid"
                    else WasmOutcome.allow sub
        | _ => WasmOutcome.deny "denied: token format is invalid"

/-- Effective value of a header entry as the lookup computes it: the
string value, or the raw bytes when the string value is empty and the raw
bytes are not. -/
def effValue (h : HeaderValue) : String :=
  if h.value = "" ∧ h.rawValue ≠ "" then h.rawValue else h.value

/-- Lookup as the specification words it: the first case-insensitively
matching entry decides, its effective value is returned (empty when there
is no match). -/
def firstMatchValue (hs : List HeaderValue) (key : String) : String :=
  match hs.find? (fun h => eqFold h.key key) with
  | some h => effValue h
  | none => ""

/-- Lookup returning the effective value of the first case-insensitive
match whose effective value is non-empty, skipping matches whose string
value and raw bytes are both empty. -/
def firstNonEmptyMatchValue (hs : List HeaderValue) (key : String) : String :=
  match hs.find? (fun h => eqFold h.key key && !(effValue h == "")) with
  | some h => effValue h
  | none => ""

/-- Shape of an outbound processing message, one tag per response oneof
case. -/
inductive RespShape where
  | reqHeadersShape
  | respHeadersShape
  | reqBodyShape
  | respBodyShape
  | reqTrailersShape
  | respTrailersShape
  | immediateShape
deriving DecidableEq, Repr

/-- Shape tag of a processing response. -/
def respShape (resp : ProcessingResponse) : RespShape :=
  match resp with
  | ProcessingResponse.requestHeaders _ => RespShape.reqHeadersShape
  | ProcessingResponse.responseHeaders _ => RespShape.respHeadersShape
  | ProcessingResponse.requestBody _ => RespShape.reqBodyShape
  | ProcessingResponse.responseBody _ => RespShape.respBodyShape
  | ProcessingResponse.requestTrailers => RespShape.reqTrailersShape
  | ProcessingResponse.responseTrailers => RespShape.respTrailersShape
  | ProcessingResponse.immediate _ _ => RespShape.immediateShape

/-- The outbound shape the streaming contract pairs with each inbound
event kind (none for an empty oneof, which the contract does not cover). -/
def matchingShape (req : ProcessingRequest) : Option RespShape :=
  match req with
  | ProcessingRequest.requestHeaders _ => some RespShape.reqHeadersShape
  | ProcessingRequest.responseHeaders => some RespShape.respHeadersShape
  | ProcessingRequest.requestBody => some RespShape.reqBodyShape
  | ProcessingRequest.responseBody => some RespShape.respBodyShape
  | ProcessingRequest.requestTrailers => some RespShape.reqTrailersShape
  | ProcessingRequest.responseTrailers => some RespShape.respTrailersShape
  | ProcessingRequest.unset => none

/-- A response is continue-shaped when its common response carries the
CONTINUE status; the empty trailers acknowledgements count as such, an
immediate response does not. -/
def isContinueShaped (resp : ProcessingResponse) : Bool :=
  match resp with
  | ProcessingResponse.requestHeaders r => r.status == CommonStatus.CONTINUE
  | ProcessingResponse.responseHeaders r => r.status == CommonStatus.CONTINUE
  | ProcessingResponse.requestBody r => r.status == CommonStatus.CONTINUE
  | ProcessingResponse.responseBody r => r.status == CommonStatus.CONTINUE
  | ProcessingResponse.requestTrailers => true
  | ProcessingResponse.responseTrailers => true
  | ProcessingResponse.immediate _ _ => false

theorem getHeaderValueFromHeaders_cons (h : HeaderValue) (rest : List HeaderValue)
    (key : String) :
    getHeaderValueFromHeaders (h :: rest) key =
      if eqFold h.key key then
        (if effValue h ≠ "" then effValue h else getHeaderValueFromHeaders rest key)
      else getHeaderValueFromHeaders rest key := rfl

theorem firstNonEmptyMatchValue_cons (h : HeaderValue) (rest : List HeaderValue)
    (key : String) :
    firstNonEmptyMatchValue (h :: rest) key =
      if eqFold h.key key && !(effValue h == "") then effValue h
      else firstNonEmptyMatchValue rest key := by
  by_cases hp : (eqFold h.key key && !(effValue h == "")) = true
  · simp [firstNonEmptyMatchValue, List.find?_cons, hp]
  · simp only [Bool.not_eq_true] at hp
    simp [firstNonEmptyMatchValue, List.find?_cons, hp]

theorem getHeaderValueFromHeaders_eq_firstNonEmpty (hs : List HeaderValue) (key : String) :
    getHeaderValueFromHeaders hs key = firstNonEmptyMatchValue hs key := by
  induction hs with
  | nil => rfl
  | cons h rest ih =>
    rw [getHeaderValueFromHeaders_cons, firstNonEmptyMatchValue_cons]
    by_cases hk : eqFold h.key key = true
    · by_cases hv : effValue h = ""
      · simp [hk, hv, ih]
      · simp [hk, hv]
    · simp only [Bool.not_eq_true] at hk
      simp [hk, ih]

theorem getHeaderValueFromHeaders_empty (hs : List HeaderValue) (key : String)
    (h : ∀ hv ∈ hs, eqFold hv.key key = true → (hv.value = "" ∧ hv.rawValue = "")) :
    getHeaderValueFromHeaders hs key = "" := by
  induction hs with
  | nil => rfl
  | cons e rest ih =>
    rw [getHeaderValueFromHeaders_cons]
    have hrest : getHeaderValueFromHeaders rest key = "" :=
      ih (fun hv hm => h hv (List.mem_cons_of_mem e hm))
    by_cases hk : eqFold e.key key = true
    · obtain ⟨h1, h2⟩ := h e (List.mem_cons_self e rest) hk
      simp [hk, effValue, h1, h2, hrest]
    · simp only [Bool.not_eq_true] at hk
      simp [hk, hrest]

/-- C4: bearer extraction over a header collection yields the missing
error exactly when the authorization lookup finds no value, the invalid
error exactly when the found value lacks the literal Bearer prefix, and
otherwise the substring after the prefix. -/
theorem c4_bearer_extraction_classification (hm : Option HeaderMap) :
    (bearerFromHeaderMap hm = Except.error errMissingAuthorization ↔
      getHeaderValueFromHeaderMap hm headerAuth = "") ∧
    (bearerFromHeaderMap hm = Except.error errInvalidAuthorization ↔
      (getHeaderValueFromHeaderMap hm headerAuth ≠ "" ∧
        strHasPfx bearerPfx (getHeaderValueFromHeaderMap hm headerAuth) = false)) ∧
    (getHeaderValueFromHeaderMap hm headerAuth ≠ "" →
      strHasPfx bearerPfx (getHeaderValueFromHeaderMap hm headerAuth) = true →
      bearerFromHeaderMap hm =
        Except.ok (strDropPfx bearerPfx (getHeaderValueFromHeaderMap hm headerAuth))) := by
  have hne : errMissingAuthorization ≠ errInvalidAuthorization := by decide
  by_cases hv : getHeaderValueFromHeaderMap hm headerAuth = ""
  · refine ⟨?_, ?_, ?_⟩ <;> simp [bearerFromHeaderMap, hv, hne]
  · by_cases hp : strHasPfx bearerPfx (getHeaderValueFromHeaderMap hm headerAuth) = true
    · refine ⟨?_, ?_, ?_⟩ <;> simp [bearerFromHeaderMap, parseBearer, hv, hp, hne]
    · simp only [Bool.not_eq_true] at hp
      refine ⟨?_, ?_, ?_⟩ <;>
        simp [bearerFromHeaderMap, parseBearer, hv, hp, hne, Ne.symm hne]

/-- C4 witness: a single well-formed authorization entry extracts the
token after the Bearer prefix. -/
theorem c4_witness :
    bearerFromHeaderMap
        (some { headers := [{ key := "Authorization", value := "Bearer tok", rawValue := "" }] }) =
      Except.ok "tok" := by
  have h := (c4_bearer_extraction_classification
    (some { headers := [{ key := "Authorization", value := "Bearer tok", rawValue := "" }] })).2.2
    (by decide) (by decide)
  exact h.trans (congrArg Except.ok (by decide))

/-- C5 counterexample: with two case-insensitive authorization matches of
which the first carries an empty string value and empty raw bytes, the
lookup returns the second match's value, while the first match's effective
value is empty — the first case-insensitive match does not win. -/
theorem c5_counterexample :
    getHeaderValueFromHeaderMap
        (some { headers := [{ key := "authorization", value := "", rawValue := "" },
                            { key := "authorization", value := "Bearer x", rawValue := "" }] })
        headerAuth = "Bearer x" ∧
    firstMatchValue
        [{ key := "authorization", value := "", rawValue := "" },
         { key := "authorization", value := "Bearer x", rawValue := "" }] headerAuth = "" ∧
    ("Bearer x" : String) ≠ "" := by decide

/-- C5 amended: the lookup prefers, per entry, the string value and falls
back to the raw bytes when the string value is empty; among duplicate
case-insensitive matches, the first match whose effective value is
non-empty wins, matches with an entirely empty effective value being
skipped; with no such match the lookup yields the empty string. -/
theorem c5_lookup_first_nonempty_match (hm : Option HeaderMap) (key : String) :
    getHeaderValueFromHeaderMap hm key =
      firstNonEmptyMatchValue (hm.elim [] HeaderMap.headers) key := by
  cases hm with
  | none => rfl
  | some m => exact getHeaderValueFromHeaders_eq_firstNonEmpty m.headers key

/-- C10: when every authorization entry reachable from the request (none
at all when any of the attribute, request, http or header-map layers is
nil) has an empty string value and empty raw bytes, Check denies with the
missing-authorization reason. -/
theorem c10_nil_and_empty_headers_denied_missing (validate : String → Except String Jwt)
    (req : CheckRequest)
    (hempty : ∀ hv ∈ (req.httpHeaderMap.elim [] HeaderMap.headers),
      eqFold hv.key headerAuth = true → (hv.value = "" ∧ hv.rawValue = "")) :
    Check validate req =
      (buildDeniedResponse codePermissionDenied errMissingAuthorization, none) := by
  have hval : getHeaderValueFromHeaderMap req.httpHeaderMap headerAuth = "" := by
    cases hmm : req.httpHeaderMap with
    | none => rfl
    | some m =>
      rw [hmm] at hempty
      exact getHeaderValueFromHeaders_empty m.headers headerAuth hempty
  have hbearer : bearerFromRequest req = Except.error errMissingAuthorization := by
    simp [bearerFromRequest, bearerFromHeaderMap, hval]
  simp [Check, hbearer]

/-- C10 witness: a fully nil attribute chain and an all-empty
authorization entry both produce the missing-authorization denial. -/
theorem c10_witness :
    Check (fun _ => Except.error "e") { attributes := none } =
      (buildDeniedResponse codePermissionDenied errMissingAuthorization, none) ∧
    Check (fun _ => Except.error "e")
        ⟨some ⟨some ⟨some ⟨some ⟨[⟨"AUTHORIZATION", "", ""⟩]⟩⟩⟩⟩⟩ =
      (buildDeniedResponse codePermissionDenied errMissingAuthorization, none) :=
  ⟨c10_nil_and_empty_headers_denied_missing _ _ (by decide),
   c10_nil_and_empty_headers_denied_missing _ _ (by decide)⟩

/-- C6: every extraction, validation or subject failure with reason r
makes Check return, with a nil Go error, a response whose status carries
the permission-denied code with message r and whose denied http response
has the Forbidden status and the body denied-colon-space followed by r. -/
theorem c6_denied_response_shape (validate : String → Except String Jwt)
    (req : CheckRequest) (r : String)
    (hfail : bearerFromRequest req = Except.error r ∨
      (∃ b, bearerFromRequest req = Except.ok b ∧ validate b = Except.error r) ∨
      (∃ b t, bearerFromRequest req = Except.ok b ∧ validate b = Except.ok t ∧
        (t.sub = none ∨ t.sub = some "") ∧ r = "subject is missing")) :
    Check validate req = (buildDeniedResponse codePermissionDenied r, none) ∧
    buildDeniedResponse codePermissionDenied r =
      { status := { code := 7, message := r }
        httpResponse := CheckHttpResponse.deniedResp 403 ("denied: " ++ r) } := by
  refine ⟨?_, rfl⟩
  rcases hfail with h1 | ⟨b, hb, hv⟩ | ⟨b, t, hb, hv, hs, hr⟩
  · simp [Check, h1]
  · simp [Check, hb, hv]
  · subst hr
    rcases hs with hs | hs <;> simp [Check, hb, hv, hs]

/-- C6 witness: a request with a nil attribute chain fails extraction with
the missing-authorization reason and yields the denial shape. -/
theorem c6_witness :
    Check (fun _ => Except.error "e") { attributes := none } =
      (buildDeniedResponse codePermissionDenied errMissingAuthorization, none) ∧
    buildDeniedResponse codePermissionDenied errMissingAuthorization =
      { status := { code := 7, message := errMissingAuthorization }
        httpResponse := CheckHttpResponse.deniedResp 403
          ("denied: " ++ errMissingAuthorization) } :=
  c6_denied_response_shape (fun _ => Except.error "e") { attributes := none }
    errMissingAuthorization (Or.inl rfl)

/-- C1: for a bearer that decodes to a token declaring RS256, signed by
the configured key, temporally valid and carrying a non-empty subject s,
Check and the request-headers Process handler both allow, each with a
single identity header instruction setting x-uid to s with append false. -/
theorem c1_allow_sets_identity_header (key : Nat) (enc : String → Decoded) (b : String)
    (t : Jwt) (s : String)
    (henc : enc b = Decoded.token t) (halg : t.alg = "RS256") (hkey : t.sigKey = key)
    (htime : t.temporalOk = true) (hsub : t.sub = some s) (hne : s ≠ "") :
    (∀ req : CheckRequest, bearerFromRequest req = Except.ok b →
      Check (jwxParse key enc) req = (buildOkResponse s, none)) ∧
    (∀ hh : HttpHeaders, bearerFromHeaderMap hh.headers = Except.ok b →
      handleRequestHeaders (jwxParse key enc) hh = buildRequestHeadersProcessingResponse s) ∧
    buildOkResponse s =
      { status := { code := 0, message := "" }
        httpResponse := CheckHttpResponse.okResp
          [{ header := { key := "x-uid", value := s, rawValue := s }
             append := some false }] } ∧
    buildRequestHeadersProcessingResponse s =
      ProcessingResponse.requestHeaders
        { status := CommonStatus.CONTINUE
          headerMutation := some { setHeaders :=
            [{ header := { key := "x-uid", value := s, rawValue := s }
               append := some false }] } } := by
  have hparse : jwxParse key enc b = Except.ok t := by
    simp [jwxParse, henc, halg, hkey, htime]
  refine ⟨?_, ?_, rfl, rfl⟩
  · intro req hreq
    simp [Check, hreq, hparse, hsub, hne]
  · intro hh hhh
    simp [handleRequestHeaders, hhh, hparse, hsub, hne]

/-- C1 witness: a concrete request and stream event whose authorization
header carries a token with subject alice are allowed with the identity
header set to alice. -/
theorem c1_witness :
    Check
        (jwxParse 0 (fun _ => Decoded.token ⟨"RS256", some "alice", 0, true⟩))
        ⟨some ⟨some ⟨some ⟨some ⟨[⟨"authorization", "Bearer tok", ""⟩]⟩⟩⟩⟩⟩ =
      (buildOkResponse "alice", none) ∧
    handleRequestHeaders
        (jwxParse 0 (fun _ => Decoded.token ⟨"RS256", some "alice", 0, true⟩))
        ⟨some ⟨[⟨"authorization", "Bearer tok", ""⟩]⟩⟩ =
      buildRequestHeadersProcessingResponse "alice" := by
  have h := c1_allow_sets_identity_header 0
    (fun _ => Decoded.token ⟨"RS256", some "alice", 0, true⟩)
    "tok" ⟨"RS256", some "alice", 0, true⟩
    "alice" rfl rfl rfl rfl rfl (by decide)
  refine ⟨h.1 _ ?_, h.2.1 ⟨some ⟨[⟨"authorization", "Bearer tok", ""⟩]⟩⟩ ?_⟩
  · show bearerFromRequest _ = _
    have hv : getHeaderValueFromHeaderMap
        (some ⟨[⟨"authorization", "Bearer tok", ""⟩]⟩) headerAuth = "Bearer tok" := by decide
    simp [bearerFromRequest, CheckRequest.httpHeaderMap, bearerFromHeaderMap, parseBearer, hv]
    exact congrArg Except.ok (by decide)
  · have hv : getHeaderValueFromHeaderMap
        (some ⟨[⟨"authorization", "Bearer tok", ""⟩]⟩) headerAuth = "Bearer tok" := by decide
    simp [bearerFromHeaderMap, parseBearer, hv]
    exact congrArg Except.ok (by decide)

/-- C2: for a bearer that decodes to a correctly signed, RS256, temporally
valid token whose subject is absent or empty, Check and the
request-headers Process handler both deny with exactly the
subject-is-missing reason. -/
theorem c2_subject_missing_denied (key : Nat) (enc : String → Decoded) (b : String)
    (t : Jwt)
    (henc : enc b = Decoded.token t) (halg : t.alg = "RS256") (hkey : t.sigKey = key)
    (htime : t.temporalOk = true) (hsub : t.sub = none ∨ t.sub = some "") :
    (∀ req : CheckRequest, bearerFromRequest req = Except.ok b →
      Check (jwxParse key enc) req =
        (buildDeniedResponse codePermissionDenied "subject is missing", none)) ∧
    (∀ hh : HttpHeaders, bearerFromHeaderMap hh.headers = Except.ok b →
      handleRequestHeaders (jwxParse key enc) hh =
        buildImmediateDeniedProcessingResponse "subject is missing") := by
  have hparse : jwxParse key enc b = Except.ok t := by
    simp [jwxParse, henc, halg, hkey, htime]
  constructor
  · intro req hreq
    rcases hsub with hs | hs <;> simp [Check, hreq, hparse, hs]
  · intro hh hhh
    rcases hsub with hs | hs <;> simp [handleRequestHeaders, hhh, hparse, hs]

/-- C2 witness: a correctly signed token with an absent subject is denied
with the subject-is-missing reason by both adapters. -/
theorem c2_witness :
    Check
        (jwxParse 0 (fun _ => Decoded.token ⟨"RS256", none, 0, true⟩))
        ⟨some ⟨some ⟨some ⟨some ⟨[⟨"authorization", "Bearer tok", ""⟩]⟩⟩⟩⟩⟩ =
      (buildDeniedResponse codePermissionDenied "subject is missing", none) ∧
    handleRequestHeaders
        (jwxParse 0 (fun _ => Decoded.token ⟨"RS256", none, 0, true⟩))
        ⟨some ⟨[⟨"authorization", "Bearer tok", ""⟩]⟩⟩ =
      buildImmediateDeniedProcessingResponse "subject is missing" := by
  have h := c2_subject_missing_denied 0
    (fun _ => Decoded.token ⟨"RS256", none, 0, true⟩)
    "tok" ⟨"RS256", none, 0, true⟩
    rfl rfl rfl rfl (Or.inl rfl)
  have hv : getHeaderValueFromHeaderMap
      (some ⟨[⟨"authorization", "Bearer tok", ""⟩]⟩) headerAuth = "Bearer tok" := by decide
  refine ⟨h.1 _ ?_, h.2 ⟨some ⟨[⟨"authorization", "Bearer tok", ""⟩]⟩⟩ ?_⟩
  · show bearerFromRequest _ = _
    simp [bearerFromRequest, CheckRequest.httpHeaderMap, bearerFromHeaderMap, parseBearer, hv]
    exact congrArg Except.ok (by decide)
  · simp [bearerFromHeaderMap, parseBearer, hv]
    exact congrArg Except.ok (by decide)

theorem strAppendLeftCancel (p a b : String) (h : p ++ a = p ++ b) : a = b := by
  have h2 : (p ++ a).data = (p ++ b).data := by rw [h]
  simp only [String.data_append] at h2
  exact String.ext (List.append_cancel_left h2)

theorem strHasPfx_ne_empty (h : String) (hp : strHasPfx bearerPfx h = true) : h ≠ "" := by
  intro h0
  subst h0
  exact absurd hp (by decide)

theorem buildOkResponse_inj (a b : String) :
    buildOkResponse a = buildOkResponse b ↔ a = b := by
  constructor
  · intro h
    simpa [buildOkResponse] using h
  · intro h; rw [h]

theorem buildDeniedResponse_inj (c : Int) (a b : String) :
    buildDeniedResponse c a = buildDeniedResponse c b ↔ a = b := by
  constructor
  · intro h
    simp [buildDeniedResponse] at h
    exact h.1
  · intro h; rw [h]

theorem buildOk_ne_denied (a : String) (c : Int) (b : String) :
    buildOkResponse a ≠ buildDeniedResponse c b := by
  simp [buildOkResponse, buildDeniedResponse]

theorem buildReqHeadersResponse_inj (a b : String) :
    buildRequestHeadersProcessingResponse a = buildRequestHeadersProcessingResponse b ↔
      a = b := by
  constructor
  · intro h
    simpa [buildRequestHeadersProcessingResponse] using h
  · intro h; rw [h]

theorem buildImmediateDenied_inj (a b : String) :
    buildImmediateDeniedProcessingResponse a = buildImmediateDeniedProcessingResponse b ↔
      a = b := by
  constructor
  · intro h
    simp [buildImmediateDeniedProcessingResponse] at h
    exact strAppendLeftCancel _ _ _ h
  · intro h; rw [h]

theorem buildReqHeaders_ne_immediate (a b : String) :
    buildRequestHeadersProcessingResponse a ≠ buildImmediateDeniedProcessingResponse b := by
  simp [buildRequestHeadersProcessingResponse, buildImmediateDeniedProcessingResponse]

theorem handleRequestHeaders_cases (validate : String → Except String Jwt)
    (h : HttpHeaders) :
    (∃ s, handleRequestHeaders validate h = buildRequestHeadersProcessingResponse s) ∨
    (∃ r, handleRequestHeaders validate h = buildImmediateDeniedProcessingResponse r) := by
  rcases hb : bearerFromHeaderMap h.headers with e | b
  · exact Or.inr ⟨e, by simp [handleRequestHeaders, hb]⟩
  · rcases hv : validate b with e | t
    · exact Or.inr ⟨e, by simp [handleRequestHeaders, hb, hv]⟩
    · rcases ht : t.sub with _ | s
      · exact Or.inr ⟨"subject is missing", by simp [handleRequestHeaders, hb, hv, ht]⟩
      · by_cases hs : s = ""
        · exact Or.inr ⟨"subject is missing", by simp [handleRequestHeaders, hb, hv, ht, hs]⟩
        · exact Or.inl ⟨s, by simp [handleRequestHeaders, hb, hv, ht, hs]⟩

/-- C3: a token whose own header segment declares an algorithm other than
RS256 is rejected for every key and payload: Check and the request-headers
Process handler deny it, and the wasm plugin callback denies it with its
invalid-token-header reason. -/
theorem c3_alg_mismatch_denied :
    (∀ (key : Nat) (enc : String → Decoded) (b : String) (t : Jwt),
      enc b = Decoded.token t → t.alg ≠ "RS256" →
      ∀ req : CheckRequest, bearerFromRequest req = Except.ok b →
        ∃ r, Check (jwxParse key enc) req =
          (buildDeniedResponse codePermissionDenied r, none)) ∧
    (∀ (key : Nat) (enc : String → Decoded) (b : String) (t : Jwt),
      enc b = Decoded.token t → t.alg ≠ "RS256" →
      ∀ hh : HttpHeaders, bearerFromHeaderMap hh.headers = Except.ok b →
        ∃ r, handleRequestHeaders (jwxParse key enc) hh =
          buildImmediateDeniedProcessingResponse r) ∧
    (∀ (c : WasmCrypto) (h p0 p1 p2 a : String),
      strHasPfx bearerPfx h = true →
      splitDot (strDropPfx bearerPfx h) = [p0, p1, p2] →
      c.decodeHeaderAlg p0 = some a → a ≠ "RS256" →
      onHttpRequestHeaders c true (some h) =
        WasmOutcome.deny "denied: token header is invalid") := by
  refine ⟨?_, ?_, ?_⟩
  · intro key enc b t henc halg req hreq
    have hparse : jwxParse key enc b = Except.error "unsupported signature algorithm" := by
      simp [jwxParse, henc, halg]
    exact ⟨"unsupported signature algorithm", by simp [Check, hreq, hparse]⟩
  · intro key enc b t henc halg hh hhh
    have hparse : jwxParse key enc b = Except.error "unsupported signature algorithm" := by
      simp [jwxParse, henc, halg]
    exact ⟨"unsupported signature algorithm", by simp [handleRequestHeaders, hhh, hparse]⟩
  · intro c h p0 p1 p2 a hp hsplit hdec hane
    have hne0 : h ≠ "" := strHasPfx_ne_empty h hp
    simp [onHttpRequestHeaders, hne0, hp, hsplit, hdec, hane]

/-- C3 witness: a self-consistent token declaring HS256 is denied by
Check, by the request-headers Process handler and by the wasm callback. -/
theorem c3_witness :
    (∃ r, Check
        (jwxParse 0 (fun _ => Decoded.token ⟨"HS256", some "alice", 0, true⟩))
        ⟨some ⟨some ⟨some ⟨some ⟨[⟨"authorization", "Bearer tok", ""⟩]⟩⟩⟩⟩⟩ =
      (buildDeniedResponse codePermissionDenied r, none)) ∧
    (∃ r, handleRequestHeaders
        (jwxParse 0 (fun _ => Decoded.token ⟨"HS256", some "alice", 0, true⟩))
        ⟨some ⟨[⟨"authorization", "Bearer tok", ""⟩]⟩⟩ =
      buildImmediateDeniedProcessingResponse r) ∧
    onHttpRequestHeaders
        ⟨fun _ => some "HS256", fun _ => some "alice", fun _ => some [], fun _ _ => true⟩
        true (some "Bearer a.b.c") =
      WasmOutcome.deny "denied: token header is invalid" := by
  have hv : getHeaderValueFromHeaderMap
      (some ⟨[⟨"authorization", "Bearer tok", ""⟩]⟩) headerAuth = "Bearer tok" := by decide
  have hbr : bearerFromHeaderMap
      (some ⟨[⟨"authorization", "Bearer tok", ""⟩]⟩) = Except.ok "tok" := by
    simp [bearerFromHeaderMap, parseBearer, hv]
    exact congrArg Except.ok (by decide)
  refine ⟨?_, ?_, ?_⟩
  · exact c3_alg_mismatch_denied.1 0 _ "tok" ⟨"HS256", some "alice", 0, true⟩
      rfl (by decide) _ hbr
  · exact c3_alg_mismatch_denied.2.1 0 _ "tok" ⟨"HS256", some "alice", 0, true⟩
      rfl (by decide) ⟨some ⟨[⟨"authorization", "Bearer tok", ""⟩]⟩⟩ hbr
  · exact c3_alg_mismatch_denied.2.2 _ "Bearer a.b.c" "a" "b" "c" "HS256"
      (by decide) (by decide) rfl (by decide)

theorem handleProcessingRequest_total (validate : String → Except String Jwt)
    (req : ProcessingRequest) (hreq : req ≠ ProcessingRequest.unset) :
    ∃ resp, handleProcessingRequest validate req = some resp ∧
      ((some (respShape resp) = matchingShape req ∧ isContinueShaped resp = true) ∨
        ((∃ h, req = ProcessingRequest.requestHeaders h) ∧
          ∃ r, resp = ProcessingResponse.immediate statusForbidden ("denied: " ++ r))) := by
  cases req with
  | requestHeaders oh =>
    cases oh with
    | none => exact ⟨_, rfl, Or.inl ⟨rfl, rfl⟩⟩
    | some h =>
      rcases handleRequestHeaders_cases validate h with ⟨s, hs⟩ | ⟨r, hr⟩
      · exact ⟨_, rfl, Or.inl (by rw [hs]; exact ⟨rfl, rfl⟩)⟩
      · exact ⟨_, rfl, Or.inr ⟨⟨some h, rfl⟩, r, by rw [hr]; rfl⟩⟩
  | responseHeaders => exact ⟨_, rfl, Or.inl ⟨rfl, rfl⟩⟩
  | requestBody => exact ⟨_, rfl, Or.inl ⟨rfl, rfl⟩⟩
  | responseBody => exact ⟨_, rfl, Or.inl ⟨rfl, rfl⟩⟩
  | requestTrailers => exact ⟨_, rfl, Or.inl ⟨rfl, rfl⟩⟩
  | responseTrailers => exact ⟨_, rfl, Or.inl ⟨rfl, rfl⟩⟩
  | unset => exact absurd rfl hreq

/-- C7: every inbound event of a known kind gets exactly one outbound
message, of the matching continue shape except for a denied
request-headers event, which gets an immediate Forbidden response with a
denied body; over a stream of known-kind events the adapter emits exactly
one message per event. -/
theorem c7_total_event_response_mapping (validate : String → Except String Jwt) :
    (∀ req : ProcessingRequest, req ≠ ProcessingRequest.unset →
      ∃ resp, handleProcessingRequest validate req = some resp ∧
        ((some (respShape resp) = matchingShape req ∧ isContinueShaped resp = true) ∨
          ((∃ h, req = ProcessingRequest.requestHeaders h) ∧
            ∃ r, resp = ProcessingResponse.immediate statusForbidden ("denied: " ++ r)))) ∧
    (∀ evs : List ProcessingRequest, (∀ e ∈ evs, e ≠ ProcessingRequest.unset) →
      (processStream validate evs).length = evs.length) := by
  refine ⟨handleProcessingRequest_total validate, ?_⟩
  intro evs hall
  induction evs with
  | nil => rfl
  | cons e rest ih =>
    obtain ⟨resp, hr, -⟩ :=
      handleProcessingRequest_total validate e (hall e (List.mem_cons_self e rest))
    simp only [processStream, hr, List.length_cons]
    exact congrArg Nat.succ (ih (fun x hx => hall x (List.mem_cons_of_mem e hx)))

/-- C7 witness: a six-event stream covering every event kind produces
exactly six outbound messages. -/
theorem c7_witness :
    (processStream (fun _ => Except.error "bad")
        [ProcessingRequest.requestHeaders none, ProcessingRequest.responseHeaders,
         ProcessingRequest.requestBody, ProcessingRequest.responseBody,
         ProcessingRequest.requestTrailers, ProcessingRequest.responseTrailers]).length = 6 := by
  have h := (c7_total_event_response_mapping (fun _ => Except.error "bad")).2
    [ProcessingRequest.requestHeaders none, ProcessingRequest.responseHeaders,
     ProcessingRequest.requestBody, ProcessingRequest.responseBody,
     ProcessingRequest.requestTrailers, ProcessingRequest.responseTrailers]
    (by decide)
  simpa using h

/-- C8: on any event that is not a request-headers event the Process
handler is independent of the token validation function and never emits
an immediate response. -/
theorem c8_other_events_never_validated (v1 v2 : String → Except String Jwt)
    (req : ProcessingRequest)
    (hnot : ∀ h : Option HttpHeaders, req ≠ ProcessingRequest.requestHeaders h) :
    handleProcessingRequest v1 req = handleProcessingRequest v2 req ∧
    ∀ st b, handleProcessingRequest v1 req ≠
      some (ProcessingResponse.immediate st b) := by
  cases req with
  | requestHeaders h => exact absurd rfl (hnot h)
  | responseHeaders =>
    exact ⟨rfl, fun st b hcon => by
      simp [handleProcessingRequest, buildContinueProcessingResponse] at hcon⟩
  | requestBody =>
    exact ⟨rfl, fun st b hcon => by
      simp [handleProcessingRequest, buildContinueProcessingResponse] at hcon⟩
  | responseBody =>
    exact ⟨rfl, fun st b hcon => by
      simp [handleProcessingRequest, buildContinueProcessingResponse] at hcon⟩
  | requestTrailers =>
    exact ⟨rfl, fun st b hcon => by
      simp [handleProcessingRequest, buildContinueProcessingResponse] at hcon⟩
  | responseTrailers =>
    exact ⟨rfl, fun st b hcon => by
      simp [handleProcessingRequest, buildContinueProcessingResponse] at hcon⟩
  | unset =>
    exact ⟨rfl, fun st b hcon => by
      simp [handleProcessingRequest, buildContinueProcessingResponse] at hcon⟩

/-- C8 witness: a response-body event gets the same answer under an
always-allowing and an always-rejecting validator, and that answer is not
an immediate response. -/
theorem c8_witness :
    handleProcessingRequest (fun _ => Except.ok ⟨"RS256", some "alice", 0, true⟩)
        ProcessingRequest.responseBody =
      handleProcessingRequest (fun _ => Except.error "bad")
        ProcessingRequest.responseBody ∧
    handleProcessingRequest (fun _ => Except.ok ⟨"RS256", some "alice", 0, true⟩)
        ProcessingRequest.responseBody ≠
      some (ProcessingResponse.immediate 403 "denied: x") := by
  have h := c8_other_events_never_validated
    (fun _ => Except.ok ⟨"RS256", some "alice", 0, true⟩) (fun _ => Except.error "bad")
    ProcessingRequest.responseBody
    (fun h hc => ProcessingRequest.noConfusion hc)
  exact ⟨h.1, h.2 403 "denied: x"⟩

/-- C9: over the same header map, Check allows with subject s exactly when
the request-headers Process handler allows with subject s, and Check
denies with reason r exactly when that handler denies immediately with
reason r. -/
theorem c9_check_process_same_decision (validate : String → Except String Jwt)
    (req : CheckRequest) (hh : HttpHeaders)
    (hsame : req.httpHeaderMap = hh.headers) :
    (∀ s, (Check validate req).1 = buildOkResponse s ↔
      handleRequestHeaders validate hh = buildRequestHeadersProcessingResponse s) ∧
    (∀ r, (Check validate req).1 = buildDeniedResponse codePermissionDenied r ↔
      handleRequestHeaders validate hh = buildImmediateDeniedProcessingResponse r) := by
  have hbe : bearerFromRequest req = bearerFromHeaderMap hh.headers := by
    rw [bearerFromRequest, hsame]
  rcases hb : bearerFromHeaderMap hh.headers with e | b
  · constructor
    · intro s
      simp [Check, handleRequestHeaders, hbe, hb,
        Ne.symm (buildOk_ne_denied s codePermissionDenied e),
        Ne.symm (buildReqHeaders_ne_immediate s e)]
    · intro r
      simp [Check, handleRequestHeaders, hbe, hb, buildDeniedResponse_inj,
        buildImmediateDenied_inj]
  · rcases hv : validate b with e | t
    · constructor
      · intro s
        simp [Check, handleRequestHeaders, hbe, hb, hv,
          Ne.symm (buildOk_ne_denied s codePermissionDenied e),
          Ne.symm (buildReqHeaders_ne_immediate s e)]
      · intro r
        simp [Check, handleRequestHeaders, hbe, hb, hv, buildDeniedResponse_inj,
          buildImmediateDenied_inj]
    · rcases ht : t.sub with _ | s0
      · constructor
        · intro s
          simp [Check, handleRequestHeaders, hbe, hb, hv, ht,
            Ne.symm (buildOk_ne_denied s codePermissionDenied "subject is missing"),
            Ne.symm (buildReqHeaders_ne_immediate s "subject is missing")]
        · intro r
          simp [Check, handleRequestHeaders, hbe, hb, hv, ht, buildDeniedResponse_inj,
            buildImmediateDenied_inj]
      · by_cases hs0 : s0 = ""
        · constructor
          · intro s
            simp [Check, handleRequestHeaders, hbe, hb, hv, ht, hs0,
              Ne.symm (buildOk_ne_denied s codePermissionDenied "subject is missing"),
              Ne.symm (buildReqHeaders_ne_immediate s "subject is missing")]
          · intro r
            simp [Check, handleRequestHeaders, hbe, hb, hv, ht, hs0,
              buildDeniedResponse_inj, buildImmediateDenied_inj]
        · constructor
          · intro s
            simp [Check, handleRequestHeaders, hbe, hb, hv, ht, hs0,
              buildOkResponse_inj, buildReqHeadersResponse_inj]
          · intro r
            simp [Check, handleRequestHeaders, hbe, hb, hv, ht, hs0,
              buildOk_ne_denied, buildReqHeaders_ne_immediate]

/-- C9 witness: on a request and a stream event with no header map both
adapters deny with the missing-authorization reason. -/
theorem c9_witness :
    handleRequestHeaders (fun _ => Except.error "bad") ⟨none⟩ =
      buildImmediateDeniedProcessingResponse errMissingAuthorization :=
  ((c9_check_process_same_decision (fun _ => Except.error "bad")
      ⟨none⟩ ⟨none⟩ rfl).2 errMissingAuthorization).mp (by decide)

end GcpSE
